import Mathlib

/-!
Verification of `gdsfactory/routing/add_electrical_pads_shortest.py`.

The Python function `add_electrical_pads_shortest` wraps a component,
instantiates one pad per selected electrical port, places each pad at a
fixed clearance along a globally chosen orientation, routes port to pad
with `route_quad`, exposes each pad port under a generated name, merges
the wrapped component's ports into the output and strips the routed ones.

We embed the function shallowly: positions and angles are rationals,
the output component records its pad references, its routes and its
ports, and Python exceptions become an explicit error type carried by
`Except`.  Collaborators that live outside the translated file (the
`pad` cell, `route_quad`, `select_ports_electrical`, port lookup on a
reference, dict semantics of a port mapping) are modelled from the spec
and marked as such in their doc comments.
-/

namespace AddElectricalPadsShortest

/-- A port of a component: a named attachment point with a 2D position,
an orientation in degrees and a port type (e.g. "electrical"). -/
structure Port where
  name : String
  x : ℚ
  y : ℚ
  orientation : ℚ
  port_type : String
deriving Repr, DecidableEq

/-- A component: a name and a list of named ports.  The port dictionary
of the Python `Component` is modelled as the list of its values in
insertion order (dict order is insertion order in Python). -/
structure Component where
  name : String
  ports : List Port
deriving Repr, DecidableEq

/-- Modelled from the spec: the pad cell is an external collaborator
(`gdsfactory.components.pad` is not part of the translated file).  It has
a bounding extent `xsize`/`ysize`, an intrinsic center `center0` (where a
fresh reference sits before any placement), and a central "pad" port
whose orientation and type are copied onto the exposed output port. -/
structure Pad where
  xsize : ℚ
  ysize : ℚ
  center0 : ℚ × ℚ
  padPortOrientation : ℚ
  padPortType : String
deriving Repr, DecidableEq

/-- A placed pad reference: its bounding-box center after the loop body
ran, and whether one of the four orientation branches placed it (`p.x`
and `p.y` were assigned).  An unplaced reference stays at `center0`. -/
structure PadRef where
  center : ℚ × ℚ
  placed : Bool
deriving Repr, DecidableEq

/-- Modelled from the spec: `route_quad` is an external primitive; the
contract is a routing shape spanning from the source port's position to
the pad pin's position on the requested layer, so we record exactly
those endpoints and the layer. -/
structure Route where
  src : ℚ × ℚ
  dst : ℚ × ℚ
  layer : String
deriving Repr, DecidableEq

/-- The output component under construction: the pad references added by
`c << pad`, the routing shapes added by `c.add_ref(route_quad(...))`,
the final port list, and the child metadata propagated by
`c.copy_child_info(component)`. -/
structure OutComponent where
  padRefs : List PadRef
  routes : List Route
  ports : List Port
  childName : String
deriving Repr, DecidableEq

/-- Python exceptions surfaced by the translated code: `LookupError`
from resolving a port name on the reference, `AttributeError` from
calling `.values()` on a plain list, `KeyError` from `dict.pop` on a
missing key. -/
inductive PyError where
  | lookupError (name : String)
  | attributeError (msg : String)
  | keyError (name : String)
deriving Repr, DecidableEq

/-- Modelled from the spec: pin "e1" of a placed pad with center `c` is
its west-side pin, at local offset minus half the x-extent. -/
def Pad.pinE1 (pad : Pad) (c : ℚ × ℚ) : ℚ × ℚ := (c.1 - pad.xsize / 2, c.2)

/-- Modelled from the spec: pin "e3" is the pad's east-side pin. -/
def Pad.pinE3 (pad : Pad) (c : ℚ × ℚ) : ℚ × ℚ := (c.1 + pad.xsize / 2, c.2)

/-- Modelled from the spec: pin "e4" is the pad's south-side pin. -/
def Pad.pinE4 (pad : Pad) (c : ℚ × ℚ) : ℚ × ℚ := (c.1, c.2 - pad.ysize / 2)

/-- Modelled from the spec: pin "e2" is the pad's north-side pin. -/
def Pad.pinE2 (pad : Pad) (c : ℚ × ℚ) : ℚ × ℚ := (c.1, c.2 + pad.ysize / 2)

/-- The value of the Python expression
`[ref[port_name] for port_name in port_names] if port_names else
select_ports(ref.ports)`: either a plain list of ports (explicit-name
branch) or a name-to-port mapping (predicate branch). -/
inductive PortsVal where
  | plist (ps : List Port)
  | pdict (ps : List (String × Port))
deriving Repr, DecidableEq

/-- The Python statement `ports = list(ports.values())`: calling
`.values()` succeeds on a dict and yields its values in order, while a
plain list has no attribute `values`, raising `AttributeError`. -/
def PortsVal.values : PortsVal → Except PyError (List Port)
  | .plist _ => .error (.attributeError "list object has no attribute values")
  | .pdict ps => .ok (ps.map Prod.snd)

/-- Modelled from the spec: `ref[port_name]` resolves a port name
against the reference's ports and fails with `LookupError` when the name
does not exist (the reference indexing itself is outside the translated
file; the spec states resolution "fails with LookupError"). -/
def refGetPort (ports : List Port) (name : String) : Except PyError Port :=
  match ports.find? (fun p => p.name = name) with
  | some p => .ok p
  | none => .error (.lookupError name)

/-- The list comprehension `[ref[port_name] for port_name in port_names]`:
names are resolved left to right and the first missing name raises. -/
def resolveNames (ports : List Port) : List String → Except PyError (List Port)
  | [] => .ok []
  | n :: rest => do
    let p ← refGetPort ports n
    let ps ← resolveNames ports rest
    pure (p :: ps)

/-- Modelled from the spec: the default `select_ports_electrical`
predicate selects all electrical-role ports of the mapping (it lives in
`gdsfactory.port`, outside the translated file). -/
def select_ports_electrical (ports : List Port) : List (String × Port) :=
  (ports.filter (fun p => p.port_type = "electrical")).map (fun p => (p.name, p))

/-- The generated name `f"elec-\x7bcomponent.name\x7d-\x7bi+1\x7d"` for the pad
port exposed at 0-based loop index `i`. -/
def elecName (cname : String) (i : Nat) : String :=
  "elec-" ++ cname ++ "-" ++ toString (i + 1)

/-- The body of one orientation dispatch: for a supported
`port_orientation` the pad reference is moved (`p.x = ...`, `p.y = ...`)
and one `route_quad` shape from the port to the facing pad pin is added;
for any other value nothing is placed or routed. -/
def placeOne (pad : Pad) (layer : String) (spacing : ℚ) (orient : ℚ)
    (port : Port) : PadRef × List Route :=
  if orient = 0 then
    let ctr : ℚ × ℚ := (port.x + spacing, port.y)
    (⟨ctr, true⟩, [⟨(port.x, port.y), pad.pinE1 ctr, layer⟩])
  else if orient = 180 then
    let ctr : ℚ × ℚ := (port.x - spacing, port.y)
    (⟨ctr, true⟩, [⟨(port.x, port.y), pad.pinE3 ctr, layer⟩])
  else if orient = 90 then
    let ctr : ℚ × ℚ := (port.x, port.y + spacing)
    (⟨ctr, true⟩, [⟨(port.x, port.y), pad.pinE4 ctr, layer⟩])
  else if orient = 270 then
    let ctr : ℚ × ℚ := (port.x, port.y - spacing)
    (⟨ctr, true⟩, [⟨(port.x, port.y), pad.pinE2 ctr, layer⟩])
  else
    (⟨pad.center0, false⟩, [])

/-- The pad port `p.ports["pad"]` (at the pad reference's center,
modelled from the spec since the pad cell is external) exposed under the
generated name by `c.add_port(port=p.ports["pad"], name=...)`. -/
def elecPort (pad : Pad) (cname : String) (i : Nat) (pr : PadRef) : Port :=
  { name := elecName cname i
    x := pr.center.1
    y := pr.center.2
    orientation := pad.padPortOrientation
    port_type := pad.padPortType }

/-- The `for i, port in enumerate(ports)` loop: per port, instantiate a
pad reference, dispatch on the global `port_orientation`, and add the
renamed pad port.  Returns the accumulated pad references, routes and
exposed pad ports, starting the enumeration at index `i`. -/
def loopPorts (pad : Pad) (layer : String) (spacing : ℚ) (orient : ℚ)
    (cname : String) : Nat → List Port → List PadRef × List Route × List Port
  | _, [] => ([], [], [])
  | i, port :: rest =>
    let pr := placeOne pad layer spacing orient port
    let tail := loopPorts pad layer spacing orient cname (i + 1) rest
    (pr.1 :: tail.1, pr.2 ++ tail.2.1, elecPort pad cname i pr.1 :: tail.2.2)

/-- The final `for port in ports: c.ports.pop(port.name)` loop:
`dict.pop` removes the entry with that key and raises `KeyError` when
the key is absent. -/
def popPorts : List Port → List Port → Except PyError (List Port)
  | [], ps => .ok ps
  | s :: rest, ps =>
    if ps.any (fun q => q.name = s.name) then
      popPorts rest (ps.eraseP (fun q => q.name = s.name))
    else
      .error (.keyError s.name)

/-- The loop and registrar stage of the function, applied after port
selection produced the plain list `selected` (the spacing argument is
already the updated `pad_port_spacing`). -/
def processSelected (component : Component) (pad : Pad) (spacing : ℚ)
    (selected : List Port) (orient : ℚ) (layer : String) :
    Except PyError OutComponent := do
  let acc := loopPorts pad layer spacing orient component.name 0 selected
  let merged := acc.2.2 ++ component.ports
  let finalPorts ← popPorts selected merged
  pure { padRefs := acc.1, routes := acc.2.1, ports := finalPorts
         childName := component.name }

/-- `add_electrical_pads_shortest`, translated statement by statement.
`port_names = []` models both Python `None` and an empty list (both are
falsy in `if port_names`).  The input component is threaded through and
returned alongside the result: no statement of the function assigns to
it, so it comes back unchanged, which is what the second projection
witnesses. -/
def add_electrical_pads_shortest (component : Component) (pad : Pad)
    (pad_port_spacing : ℚ) (select_ports : List Port → List (String × Port))
    (port_names : List String) (port_orientation : ℚ) (layer : String) :
    Except PyError OutComponent × Component :=
  let res : Except PyError OutComponent := do
    let portsVal : PortsVal ←
      if port_names ≠ [] then do
        let l ← resolveNames component.ports port_names
        pure (PortsVal.plist l)
      else
        pure (PortsVal.pdict (select_ports component.ports))
    let selected ← portsVal.values
    let spacing := pad_port_spacing + pad.xsize / 2
    processSelected component pad spacing selected port_orientation layer
  (res, component)

/-- The selected ports of the predicate branch: the values of the
mapping returned by `select_ports(ref.ports)`, in mapping order. -/
def selectedValues (select_ports : List Port → List (String × Port))
    (component : Component) : List Port :=
  (select_ports component.ports).map Prod.snd

/-- A concrete straight two-port wire, as produced by
`wire_straight(length=200.)`: port "e1" at the west end facing 180 and
port "e2" at the east end facing 0, both electrical. -/
def wire_long : Component :=
  { name := "wire"
    ports := [⟨"e1", 0, 0, 180, "electrical"⟩, ⟨"e2", 200, 0, 0, "electrical"⟩] }

/-- A concrete pad cell of x-extent 20 (half-extent 10 along x) and
y-extent 40, sitting at the origin before placement. -/
def pad20 : Pad :=
  { xsize := 20, ysize := 40, center0 := (0, 0)
    padPortOrientation := 0, padPortType := "electrical" }

/-- A concrete component with a single electrical port at the origin
facing 90. -/
def oneNorth : Component :=
  { name := "c", ports := [⟨"e1", 0, 0, 90, "electrical"⟩] }

instance {ε α : Type} [DecidableEq ε] [DecidableEq α] :
    DecidableEq (Except ε α) := fun a b =>
  match a, b with
  | .ok x, .ok y =>
    if h : x = y then .isTrue (congrArg Except.ok h)
    else .isFalse (fun hh => h (Except.ok.inj hh))
  | .error x, .error y =>
    if h : x = y then .isTrue (congrArg Except.error h)
    else .isFalse (fun hh => h (Except.error.inj hh))
  | .ok _, .error _ => .isFalse (fun hh => Except.noConfusion hh)
  | .error _, .ok _ => .isFalse (fun hh => Except.noConfusion hh)

/-- The pad references accumulated by the loop are the per-port
placements, in selection order. -/
lemma loopPorts_padRefs (pad : Pad) (layer : String) (s o : ℚ) (cname : String) :
    ∀ (i : Nat) (sel : List Port),
      (loopPorts pad layer s o cname i sel).1 =
        sel.map (fun p => (placeOne pad layer s o p).1)
  | _, [] => rfl
  | i, port :: rest => by
    simp [loopPorts, loopPorts_padRefs pad layer s o cname (i + 1) rest]

/-- The names of the pad ports accumulated by the loop starting at
index `i` are `elecName` applied to the consecutive indices. -/
lemma loopPorts_elec_names (pad : Pad) (layer : String) (s o : ℚ) (cname : String) :
    ∀ (i : Nat) (sel : List Port),
      ((loopPorts pad layer s o cname i sel).2.2).map Port.name =
        (List.range' i sel.length).map (elecName cname)
  | _, [] => rfl
  | i, port :: rest => by
    have ih := loopPorts_elec_names pad layer s o cname (i + 1) rest
    simp [loopPorts, elecPort, List.range'_succ, ih]

/-- One pad port is exposed per selected port. -/
lemma loopPorts_elec_length (pad : Pad) (layer : String) (s o : ℚ) (cname : String)
    (i : Nat) (sel : List Port) :
    ((loopPorts pad layer s o cname i sel).2.2).length = sel.length := by
  have h := congrArg List.length (loopPorts_elec_names pad layer s o cname i sel)
  simpa using h

/-- One pad reference is instantiated per selected port. -/
lemma loopPorts_padRefs_length (pad : Pad) (layer : String) (s o : ℚ) (cname : String)
    (i : Nat) (sel : List Port) :
    ((loopPorts pad layer s o cname i sel).1).length = sel.length := by
  simp [loopPorts_padRefs]

/-- For a `port_orientation` outside the four supported values,
the loop body leaves the pad reference at its default location and
produces no route. -/
lemma placeOne_unsupported (pad : Pad) (layer : String) (s o : ℚ) (port : Port)
    (h0 : o ≠ 0) (h180 : o ≠ 180) (h90 : o ≠ 90) (h270 : o ≠ 270) :
    placeOne pad layer s o port = (⟨pad.center0, false⟩, []) := by
  simp [placeOne, h0, h180, h90, h270]

/-- For a `port_orientation` outside the four supported values the loop
adds no routes at all. -/
lemma loopPorts_routes_unsupported (pad : Pad) (layer : String) (s o : ℚ) (cname : String)
    (h0 : o ≠ 0) (h180 : o ≠ 180) (h90 : o ≠ 90) (h270 : o ≠ 270) :
    ∀ (i : Nat) (sel : List Port),
      (loopPorts pad layer s o cname i sel).2.1 = []
  | _, [] => rfl
  | i, port :: rest => by
    have ih := loopPorts_routes_unsupported pad layer s o cname h0 h180 h90 h270 (i + 1) rest
    simp [loopPorts, placeOne_unsupported pad layer s o port h0 h180 h90 h270, ih]

/-- The registrar's pop loop, run on the exposed pad ports followed by
the original ports: when the selected names avoid the pad-port names,
occur among the original names, and both name lists are duplicate-free,
every pop succeeds, the pad ports survive, and exactly the selected
names are removed from the original ports. -/
lemma popPorts_append_ok :
    ∀ (sel ps elec : List Port),
      (∀ s ∈ sel, ∀ e ∈ elec, s.name ≠ e.name) →
      (ps.map Port.name).Nodup →
      (sel.map Port.name).Nodup →
      (∀ s ∈ sel, s.name ∈ ps.map Port.name) →
      popPorts sel (elec ++ ps) =
        .ok (elec ++ ps.filter (fun p => !((sel.map Port.name).contains p.name))) ∧
      (ps.filter (fun p => !((sel.map Port.name).contains p.name))).length + sel.length
        = ps.length
  | [], ps, elec, _, _, _, _ => by
    simp [popPorts]
  | s :: rest, ps, elec, hd, hnd, hsnd, hsub => by
    have hmem : s.name ∈ ps.map Port.name := hsub s (List.mem_cons_self s rest)
    obtain ⟨q, hq, hqname⟩ := List.mem_map.1 hmem
    have hpq : (fun p : Port => decide (p.name = s.name)) q = true := by
      simp [hqname]
    have hany : (elec ++ ps).any (fun p => decide (p.name = s.name)) = true := by
      rw [List.any_append, Bool.or_eq_true]
      exact Or.inr (List.any_eq_true.2 ⟨q, hq, hpq⟩)
    have helec : ∀ e ∈ elec, ¬((fun p : Port => decide (p.name = s.name)) e = true) := by
      intro e he h
      have h2 : e.name = s.name := of_decide_eq_true h
      exact hd s (List.mem_cons_self s rest) e he h2.symm
    have herase : (elec ++ ps).eraseP (fun p => decide (p.name = s.name)) =
        elec ++ ps.eraseP (fun p => decide (p.name = s.name)) :=
      List.eraseP_append_right ps helec
    obtain ⟨a, l₁, l₂, hl₁, hpa, hps, hline⟩ :=
      List.exists_of_eraseP (p := fun p : Port => decide (p.name = s.name)) hq hpq
    have haname : a.name = s.name := of_decide_eq_true hpa
    have hnames : ps.map Port.name =
        l₁.map Port.name ++ a.name :: l₂.map Port.name := by
      rw [hps]; simp
    have hpslen : ps.length = l₁.length + l₂.length + 1 := by
      rw [hps]; simp [List.length_append]; omega
    have hsubl : List.Sublist (l₁ ++ l₂ : List Port) ps := hline ▸ List.eraseP_sublist ps
    have hnd' : (((l₁ ++ l₂ : List Port)).map Port.name).Nodup :=
      hnd.sublist (hsubl.map Port.name)
    have hcons : (∀ x ∈ rest, ¬x.name = s.name) ∧ (List.map Port.name rest).Nodup := by
      simpa using hsnd
    have hsub' : ∀ r ∈ rest, r.name ∈ (l₁ ++ l₂ : List Port).map Port.name := by
      intro r hr
      have hrps : r.name ∈ ps.map Port.name := hsub r (List.mem_cons_of_mem s hr)
      have hrname : r.name ≠ s.name := hcons.1 r hr
      rw [hnames] at hrps
      rw [List.map_append, List.mem_append]
      rcases List.mem_append.1 hrps with h | h
      · exact Or.inl h
      · rcases List.mem_cons.1 h with h | h
        · exact absurd (h.trans haname) hrname
        · exact Or.inr h
    have hd' : ∀ r ∈ rest, ∀ e ∈ elec, r.name ≠ e.name :=
      fun r hr => hd r (List.mem_cons_of_mem s hr)
    obtain ⟨ih1, ih2⟩ := popPorts_append_ok rest (l₁ ++ l₂) elec hd' hnd' hcons.2 hsub'
    have hal₂ : ∀ b ∈ l₂, b.name ≠ s.name := by
      rw [hnames] at hnd
      have h1 : (a.name :: l₂.map Port.name).Nodup := ((List.nodup_append.1 hnd).2).1
      have h2 : a.name ∉ l₂.map Port.name := (List.nodup_cons.1 h1).1
      intro b hb hbeq
      apply h2
      rw [← haname] at hbeq
      exact hbeq ▸ List.mem_map_of_mem Port.name hb
    have hfilter : ps.filter (fun p => !(((s :: rest).map Port.name).contains p.name)) =
        (l₁ ++ l₂).filter (fun p => !((rest.map Port.name).contains p.name)) := by
      rw [hps, List.filter_append, List.filter_append]
      have hcongr : ∀ b : Port, b.name ≠ s.name →
          (!(((s :: rest).map Port.name).contains b.name)) =
          (!((rest.map Port.name).contains b.name)) := by
        intro b hb
        simp [List.contains_cons, hb]
      congr 1
      · exact List.filter_congr fun b hb =>
          hcongr b (fun h => hl₁ b hb (by simp [h]))
      · have hpa' : (!(((s :: rest).map Port.name).contains a.name)) = false := by
          simp [haname]
        rw [List.filter_cons, hpa']
        simp only [Bool.false_eq_true, if_false]
        exact List.filter_congr fun b hb => hcongr b (hal₂ b hb)
    constructor
    · show popPorts (s :: rest) (elec ++ ps) = _
      rw [popPorts, if_pos hany, herase, hline, ih1, hfilter]
    · rw [hfilter]
      have hlen : (l₁ ++ l₂ : List Port).length = l₁.length + l₂.length :=
        List.length_append l₁ l₂
      rw [hlen] at ih2
      simp only [List.length_cons]
      omega

/-- With empty `port_names` (Python `None` or `[]`), the function is the
predicate branch followed by the loop and registrar stage, with the
spacing bumped by half the pad's x-extent; the input component comes
back untouched. -/
lemma op_no_names (component : Component) (pad : Pad) (d : ℚ)
    (f : List Port → List (String × Port)) (o : ℚ) (layer : String) :
    add_electrical_pads_shortest component pad d f [] o layer =
      (processSelected component pad (d + pad.xsize / 2) (selectedValues f component) o
        layer, component) := rfl

/-- Shape of the loop and registrar stage on the success path: the
output holds the loop's pad references, routes and pad ports, followed
by the original ports with the selected names filtered out, and the
filtered part is shorter than the original ports by exactly the number
of selected ports. -/
lemma processSelected_ok (component : Component) (pad : Pad) (s : ℚ) (sel : List Port)
    (o : ℚ) (layer : String)
    (hnd : (component.ports.map Port.name).Nodup)
    (hsnd : (sel.map Port.name).Nodup)
    (hsub : ∀ p ∈ sel, p.name ∈ component.ports.map Port.name)
    (hfresh : ∀ p ∈ sel,
      ∀ e ∈ (loopPorts pad layer s o component.name 0 sel).2.2, p.name ≠ e.name) :
    processSelected component pad s sel o layer =
      .ok { padRefs := (loopPorts pad layer s o component.name 0 sel).1
            routes := (loopPorts pad layer s o component.name 0 sel).2.1
            ports := (loopPorts pad layer s o component.name 0 sel).2.2 ++
              component.ports.filter (fun p => !((sel.map Port.name).contains p.name))
            childName := component.name } ∧
    (component.ports.filter (fun p => !((sel.map Port.name).contains p.name))).length
        + sel.length = component.ports.length := by
  obtain ⟨h1, h2⟩ := popPorts_append_ok sel component.ports
    ((loopPorts pad layer s o component.name 0 sel).2.2) hfresh hnd hsnd hsub
  refine ⟨?_, h2⟩
  simp [processSelected, h1]

/-- Helper for the explicit-name branch: when some requested name is
missing from the reference's ports, the comprehension fails with a
`LookupError` whose offending name is itself missing from the ports. -/
lemma resolveNames_error (ports : List Port) :
    ∀ (names : List String) (n : String), n ∈ names → n ∉ ports.map Port.name →
      ∃ m, resolveNames ports names = .error (.lookupError m) ∧ m ∉ ports.map Port.name
  | [], n, hmem, _ => absurd hmem (List.not_mem_nil n)
  | k :: rest, n, hmem, hmiss => by
    cases hfind : ports.find? (fun p => p.name = k) with
    | none =>
      refine ⟨k, by simp [resolveNames, refGetPort, hfind, Bind.bind, Except.bind], ?_⟩
      intro hk
      obtain ⟨q, hq, hqname⟩ := List.mem_map.1 hk
      have := List.find?_eq_none.1 hfind q hq
      simp [hqname] at this
    | some p =>
      have hkmem : k ∈ ports.map Port.name := by
        have h1 := List.find?_some hfind
        have h2 := List.mem_of_find?_eq_some hfind
        have h3 : p.name = k := of_decide_eq_true h1
        exact h3 ▸ List.mem_map_of_mem Port.name h2
      have hnrest : n ∈ rest := by
        rcases List.mem_cons.1 hmem with h | h
        · exact absurd (h ▸ hkmem) hmiss
        · exact h
      obtain ⟨m, hm, hmm⟩ := resolveNames_error ports rest n hnrest hmiss
      exact ⟨m, by simp [resolveNames, refGetPort, hfind, hm, Bind.bind, Except.bind], hmm⟩

/-- C8: the operation never mutates its input component: the threaded
input comes back unchanged alongside whatever result is produced. -/
theorem spec_c8 (component : Component) (pad : Pad) (d : ℚ)
    (f : List Port → List (String × Port)) (names : List String) (o : ℚ)
    (layer : String) :
    (add_electrical_pads_shortest component pad d f names o layer).2 = component := rfl

/-- C9: with a non-empty `port_names` list the function never returns a
component: the explicit-name branch builds a plain list of ports, and
calling `.values()` on a list raises, so the result is always an error
(either the lookup failure or the attribute failure). -/
theorem spec_c9 (component : Component) (pad : Pad) (d : ℚ)
    (f : List Port → List (String × Port)) (names : List String) (o : ℚ)
    (layer : String) (h : names ≠ []) :
    ((add_electrical_pads_shortest component pad d f names o layer).1).isOk = false := by
  cases hres : resolveNames component.ports names with
  | error e =>
    simp [add_electrical_pads_shortest, h, hres, Except.isOk, Except.toBool,
      Bind.bind, Except.bind]
  | ok l =>
    simp [add_electrical_pads_shortest, h, hres, PortsVal.values, Except.isOk,
      Except.toBool, Bind.bind, Except.bind, Pure.pure, Except.pure]

/-- Witness for C9 at a concrete input: requesting the existing port
"e1" of the wire by name still yields no output component. -/
theorem spec_c9_witness :
    (["e1"] ≠ ([] : List String)) ∧
    ((add_electrical_pads_shortest wire_long pad20 50 select_ports_electrical ["e1"]
      180 "M3").1).isOk = false :=
  ⟨by decide,
    spec_c9 wire_long pad20 50 select_ports_electrical ["e1"] 180 "M3" (by decide)⟩

/-- C4: a non-empty `port_names` takes precedence and the selection
predicate is never consulted (two runs differing only in the predicate
agree); with `port_names` absent or empty, the function is the predicate
applied to the full port set followed by processing of the mapping's
values in order. -/
theorem spec_c4 (component : Component) (pad : Pad) (d : ℚ)
    (f g : List Port → List (String × Port)) (names : List String) (o : ℚ)
    (layer : String) (h : names ≠ []) :
    add_electrical_pads_shortest component pad d f names o layer =
      add_electrical_pads_shortest component pad d g names o layer ∧
    (add_electrical_pads_shortest component pad d f [] o layer).1 =
      processSelected component pad (d + pad.xsize / 2) (selectedValues f component)
        o layer := by
  constructor
  · simp [add_electrical_pads_shortest, h]
  · rfl

/-- Witness for C4 at a concrete input: with `port_names=["e1"]` the
electrical-port predicate and the reject-everything predicate give the
same run. -/
theorem spec_c4_witness :
    (["e1"] ≠ ([] : List String)) ∧
    (add_electrical_pads_shortest wire_long pad20 50 select_ports_electrical ["e1"]
        90 "M3" =
      add_electrical_pads_shortest wire_long pad20 50 (fun _ => []) ["e1"] 90 "M3" ∧
    (add_electrical_pads_shortest wire_long pad20 50 select_ports_electrical [] 90
        "M3").1 =
      processSelected wire_long pad20 (50 + pad20.xsize / 2)
        (selectedValues select_ports_electrical wire_long) 90 "M3") :=
  ⟨by decide,
    spec_c4 wire_long pad20 50 select_ports_electrical (fun _ => []) ["e1"] 90 "M3"
      (by decide)⟩

/-- C5: when `port_names` contains a name that does not exist on the
component, the function fails with a `LookupError` (for the first
missing name) and produces no output component. -/
theorem spec_c5 (component : Component) (pad : Pad) (d : ℚ)
    (f : List Port → List (String × Port)) (names : List String) (o : ℚ)
    (layer : String) (n : String) (hmem : n ∈ names)
    (hmiss : n ∉ component.ports.map Port.name) :
    ∃ m, (add_electrical_pads_shortest component pad d f names o layer).1 =
      .error (.lookupError m) ∧ m ∉ component.ports.map Port.name := by
  have hne : names ≠ [] := by
    intro hh
    subst hh
    exact absurd hmem (List.not_mem_nil n)
  obtain ⟨m, hm, hmm⟩ := resolveNames_error component.ports names n hmem hmiss
  exact ⟨m, by simp [add_electrical_pads_shortest, hne, hm, Bind.bind, Except.bind], hmm⟩

/-- Witness for C5 at a concrete input: requesting the nonexistent port
"gnd" on the wire raises the lookup failure. -/
theorem spec_c5_witness :
    ("gnd" ∈ ["gnd"] ∧ "gnd" ∉ wire_long.ports.map Port.name) ∧
    ∃ m, (add_electrical_pads_shortest wire_long pad20 50 select_ports_electrical
        ["gnd"] 90 "M3").1 = .error (.lookupError m) ∧
      m ∉ wire_long.ports.map Port.name :=
  ⟨⟨by decide, by decide⟩,
    spec_c5 wire_long pad20 50 select_ports_electrical ["gnd"] 90 "M3" "gnd"
      (by decide) (by decide)⟩

/-- C1: on the predicate branch, for a component whose port names are
unique, a selection drawn from those ports with duplicate-free names
that avoids the generated pad-port names, the output's port list is the
new pad ports (one per selected port) followed by the original ports
minus the selected ones, and the number of output ports equals the
number of input ports. -/
theorem spec_c1 (component : Component) (pad : Pad) (d : ℚ)
    (f : List Port → List (String × Port)) (o : ℚ) (layer : String)
    (hnd : (component.ports.map Port.name).Nodup)
    (hsnd : ((selectedValues f component).map Port.name).Nodup)
    (hsub : ∀ p ∈ selectedValues f component, p.name ∈ component.ports.map Port.name)
    (hfresh : ∀ p ∈ selectedValues f component,
      ∀ e ∈ (loopPorts pad layer (d + pad.xsize / 2) o component.name 0
        (selectedValues f component)).2.2, p.name ≠ e.name) :
    ∃ out, (add_electrical_pads_shortest component pad d f [] o layer).1 = .ok out ∧
      out.ports =
        (loopPorts pad layer (d + pad.xsize / 2) o component.name 0
          (selectedValues f component)).2.2 ++
        component.ports.filter (fun p =>
          !(((selectedValues f component).map Port.name).contains p.name)) ∧
      ((loopPorts pad layer (d + pad.xsize / 2) o component.name 0
          (selectedValues f component)).2.2).length =
        (selectedValues f component).length ∧
      out.ports.length = component.ports.length := by
  obtain ⟨h1, h2⟩ := processSelected_ok component pad (d + pad.xsize / 2)
    (selectedValues f component) o layer hnd hsnd hsub hfresh
  have hlen := loopPorts_elec_length pad layer (d + pad.xsize / 2) o component.name 0
    (selectedValues f component)
  refine ⟨_, h1, rfl, hlen, ?_⟩
  simp only [List.length_append, hlen]
  omega

/-- Witness for C1: the two-port wire with the default electrical
selection keeps exactly two ports. -/
theorem spec_c1_witness :
    ((wire_long.ports.map Port.name).Nodup ∧
     ((selectedValues select_ports_electrical wire_long).map Port.name).Nodup ∧
     (∀ p ∈ selectedValues select_ports_electrical wire_long,
        p.name ∈ wire_long.ports.map Port.name) ∧
     (∀ p ∈ selectedValues select_ports_electrical wire_long,
        ∀ e ∈ (loopPorts pad20 "M3" (50 + pad20.xsize / 2) 90 wire_long.name 0
          (selectedValues select_ports_electrical wire_long)).2.2, p.name ≠ e.name)) ∧
    (∃ out,
      (add_electrical_pads_shortest wire_long pad20 50 select_ports_electrical [] 90
        "M3").1 = .ok out ∧
      out.ports =
        (loopPorts pad20 "M3" (50 + pad20.xsize / 2) 90 wire_long.name 0
          (selectedValues select_ports_electrical wire_long)).2.2 ++
        wire_long.ports.filter (fun p =>
          !(((selectedValues select_ports_electrical wire_long).map
            Port.name).contains p.name)) ∧
      ((loopPorts pad20 "M3" (50 + pad20.xsize / 2) 90 wire_long.name 0
          (selectedValues select_ports_electrical wire_long)).2.2).length =
        (selectedValues select_ports_electrical wire_long).length ∧
      out.ports.length = wire_long.ports.length) :=
  ⟨⟨by decide, by decide, by decide, by decide⟩,
    spec_c1 wire_long pad20 50 select_ports_electrical 90 "M3"
      (by decide) (by decide) (by decide) (by decide)⟩

/-- C6: the pad port exposed for the i-th selected port (0-based
selection order) is named `elec-<source-name>-<i+1>`, a deterministic
name built from the source component's name and the 1-based sequential
index. -/
theorem spec_c6 (component : Component) (pad : Pad) (d : ℚ)
    (f : List Port → List (String × Port)) (o : ℚ) (layer : String)
    (hnd : (component.ports.map Port.name).Nodup)
    (hsnd : ((selectedValues f component).map Port.name).Nodup)
    (hsub : ∀ p ∈ selectedValues f component, p.name ∈ component.ports.map Port.name)
    (hfresh : ∀ p ∈ selectedValues f component,
      ∀ e ∈ (loopPorts pad layer (d + pad.xsize / 2) o component.name 0
        (selectedValues f component)).2.2, p.name ≠ e.name) :
    ∃ out, (add_electrical_pads_shortest component pad d f [] o layer).1 = .ok out ∧
      (out.ports.take (selectedValues f component).length).map Port.name =
        (List.range (selectedValues f component).length).map
          (fun i => "elec-" ++ component.name ++ "-" ++ toString (i + 1)) := by
  obtain ⟨h1, _⟩ := processSelected_ok component pad (d + pad.xsize / 2)
    (selectedValues f component) o layer hnd hsnd hsub hfresh
  have hlen := loopPorts_elec_length pad layer (d + pad.xsize / 2) o component.name 0
    (selectedValues f component)
  have hnames := loopPorts_elec_names pad layer (d + pad.xsize / 2) o component.name 0
    (selectedValues f component)
  refine ⟨_, h1, ?_⟩
  show (((loopPorts pad layer (d + pad.xsize / 2) o component.name 0
      (selectedValues f component)).2.2 ++ _).take
        (selectedValues f component).length).map Port.name = _
  rw [List.take_left' hlen, hnames, List.range_eq_range']
  rfl

/-- Witness for C6: the wire's two pad ports are named elec-wire-1 and
elec-wire-2. -/
theorem spec_c6_witness :
    ((wire_long.ports.map Port.name).Nodup ∧
     ((selectedValues select_ports_electrical wire_long).map Port.name).Nodup ∧
     (∀ p ∈ selectedValues select_ports_electrical wire_long,
        p.name ∈ wire_long.ports.map Port.name) ∧
     (∀ p ∈ selectedValues select_ports_electrical wire_long,
        ∀ e ∈ (loopPorts pad20 "M3" (50 + pad20.xsize / 2) 0 wire_long.name 0
          (selectedValues select_ports_electrical wire_long)).2.2, p.name ≠ e.name)) ∧
    (∃ out,
      (add_electrical_pads_shortest wire_long pad20 50 select_ports_electrical [] 0
        "M3").1 = .ok out ∧
      (out.ports.take (selectedValues select_ports_electrical wire_long).length).map
          Port.name =
        (List.range (selectedValues select_ports_electrical wire_long).length).map
          (fun i => "elec-" ++ wire_long.name ++ "-" ++ toString (i + 1))) :=
  ⟨⟨by decide, by decide, by decide, by decide⟩,
    spec_c6 wire_long pad20 50 select_ports_electrical 0 "M3"
      (by decide) (by decide) (by decide) (by decide)⟩

/-- C10: for every run that reaches the per-port loop (empty
`port_names`), whatever the `port_orientation` value, one pad reference
is added per selected port, every generated pad-port name appears in the
output, every selected port's name is gone from the output, and the
output port count equals the input port count. -/
theorem spec_c10 (component : Component) (pad : Pad) (d : ℚ)
    (f : List Port → List (String × Port)) (o : ℚ) (layer : String)
    (hnd : (component.ports.map Port.name).Nodup)
    (hsnd : ((selectedValues f component).map Port.name).Nodup)
    (hsub : ∀ p ∈ selectedValues f component, p.name ∈ component.ports.map Port.name)
    (hfresh : ∀ p ∈ selectedValues f component,
      ∀ e ∈ (loopPorts pad layer (d + pad.xsize / 2) o component.name 0
        (selectedValues f component)).2.2, p.name ≠ e.name) :
    ∃ out, (add_electrical_pads_shortest component pad d f [] o layer).1 = .ok out ∧
      out.padRefs.length = (selectedValues f component).length ∧
      (∀ i, i < (selectedValues f component).length →
        elecName component.name i ∈ out.ports.map Port.name) ∧
      (∀ p ∈ selectedValues f component, p.name ∉ out.ports.map Port.name) ∧
      out.ports.length = component.ports.length := by
  obtain ⟨h1, h2⟩ := processSelected_ok component pad (d + pad.xsize / 2)
    (selectedValues f component) o layer hnd hsnd hsub hfresh
  have hlen := loopPorts_elec_length pad layer (d + pad.xsize / 2) o component.name 0
    (selectedValues f component)
  have hnames := loopPorts_elec_names pad layer (d + pad.xsize / 2) o component.name 0
    (selectedValues f component)
  refine ⟨_, h1, ?_, ?_, ?_, ?_⟩
  · exact loopPorts_padRefs_length pad layer (d + pad.xsize / 2) o component.name 0
      (selectedValues f component)
  · intro i hi
    rw [List.map_append, List.mem_append]
    left
    rw [hnames]
    exact List.mem_map_of_mem (elecName component.name)
      (List.mem_range'.2 ⟨i, hi, by omega⟩)
  · intro p hp hcontra
    rw [List.map_append, List.mem_append] at hcontra
    rcases hcontra with hc | hc
    · obtain ⟨e, he, hee⟩ := List.mem_map.1 hc
      exact hfresh p hp e he hee.symm
    · obtain ⟨q, hq, hqe⟩ := List.mem_map.1 hc
      have hqf := List.mem_filter.1 hq
      have hq2 : (((selectedValues f component).map Port.name).contains q.name)
          = false := by
        have := hqf.2
        rwa [Bool.not_eq_true'] at this
      have hmem2 : q.name ∈ (selectedValues f component).map Port.name :=
        hqe ▸ List.mem_map_of_mem Port.name hp
      have h3 : (((selectedValues f component).map Port.name).contains q.name) = true :=
        List.elem_eq_true_of_mem hmem2
      rw [h3] at hq2
      cases hq2
  · simp only [List.length_append, hlen]
    omega

/-- Witness for C10 at an unsupported orientation: with
`port_orientation=45` the wire still gets two pad references, the two
generated pad ports, loses e1 and e2, and keeps two ports total. -/
theorem spec_c10_witness :
    ((wire_long.ports.map Port.name).Nodup ∧
     ((selectedValues select_ports_electrical wire_long).map Port.name).Nodup ∧
     (∀ p ∈ selectedValues select_ports_electrical wire_long,
        p.name ∈ wire_long.ports.map Port.name) ∧
     (∀ p ∈ selectedValues select_ports_electrical wire_long,
        ∀ e ∈ (loopPorts pad20 "M3" (50 + pad20.xsize / 2) 45 wire_long.name 0
          (selectedValues select_ports_electrical wire_long)).2.2, p.name ≠ e.name)) ∧
    (∃ out,
      (add_electrical_pads_shortest wire_long pad20 50 select_ports_electrical [] 45
        "M3").1 = .ok out ∧
      out.padRefs.length = (selectedValues select_ports_electrical wire_long).length ∧
      (∀ i, i < (selectedValues select_ports_electrical wire_long).length →
        elecName wire_long.name i ∈ out.ports.map Port.name) ∧
      (∀ p ∈ selectedValues select_ports_electrical wire_long,
        p.name ∉ out.ports.map Port.name) ∧
      out.ports.length = wire_long.ports.length) :=
  ⟨⟨by decide, by decide, by decide, by decide⟩,
    spec_c10 wire_long pad20 50 select_ports_electrical 45 "M3"
      (by decide) (by decide) (by decide) (by decide)⟩

/-- Placement component of the loop body, written as one if-chain. -/
lemma placeOne_fst (pad : Pad) (layer : String) (s o : ℚ) (port : Port) :
    (placeOne pad layer s o port).1 =
      if o = 0 then ⟨(port.x + s, port.y), true⟩
      else if o = 180 then ⟨(port.x - s, port.y), true⟩
      else if o = 90 then ⟨(port.x, port.y + s), true⟩
      else if o = 270 then ⟨(port.x, port.y - s), true⟩
      else ⟨pad.center0, false⟩ := by
  simp only [placeOne]
  split_ifs <;> rfl

/-- Counterexample to C2 as stated: with a pad of x-extent 20 and
y-extent 40, spacing 50 and orientation 90, the pad center lands at
(0, 60) = (0, 50 + xsize/2), not at (0, 50 + ysize/2) = (0, 70) as the
half-extent-along-the-connection-axis reading requires. -/
theorem spec_c2_counterexample :
    (add_electrical_pads_shortest oneNorth pad20 50 select_ports_electrical [] 90
        "M3").1.map (fun out => out.padRefs.map PadRef.center) = .ok [(0, 60)] ∧
      ((0 : ℚ), (60 : ℚ)) ≠ ((0 : ℚ), 50 + pad20.ysize / 2) := by
  constructor
  · norm_num [add_electrical_pads_shortest, processSelected, loopPorts, placeOne,
      elecPort, elecName, selectedValues, select_ports_electrical, popPorts,
      Pad.pinE1, Pad.pinE3, Pad.pinE4, Pad.pinE2, wire_long, pad20, oneNorth,
      Bind.bind, Except.bind, Pure.pure, Except.pure, Except.map, PortsVal.values]
  · norm_num [pad20, Prod.ext_iff]

/-- C2 (amended): the effective clearance is the caller-supplied spacing
plus half the pad's x-extent for all four orientations — including 90
and 270, where the connection axis is y: pad centers are
(x0 + d + xsize/2, y0) for 0, (x0 − d − xsize/2, y0) for 180,
(x0, y0 + d + xsize/2) for 90 and (x0, y0 − d − xsize/2) for 270. -/
theorem spec_c2 (component : Component) (pad : Pad) (d : ℚ)
    (f : List Port → List (String × Port)) (o : ℚ) (layer : String)
    (hnd : (component.ports.map Port.name).Nodup)
    (hsnd : ((selectedValues f component).map Port.name).Nodup)
    (hsub : ∀ p ∈ selectedValues f component, p.name ∈ component.ports.map Port.name)
    (hfresh : ∀ p ∈ selectedValues f component,
      ∀ e ∈ (loopPorts pad layer (d + pad.xsize / 2) o component.name 0
        (selectedValues f component)).2.2, p.name ≠ e.name) :
    ∃ out, (add_electrical_pads_shortest component pad d f [] o layer).1 = .ok out ∧
      out.padRefs = (selectedValues f component).map (fun port =>
        if o = 0 then ⟨(port.x + (d + pad.xsize / 2), port.y), true⟩
        else if o = 180 then ⟨(port.x - (d + pad.xsize / 2), port.y), true⟩
        else if o = 90 then ⟨(port.x, port.y + (d + pad.xsize / 2)), true⟩
        else if o = 270 then ⟨(port.x, port.y - (d + pad.xsize / 2)), true⟩
        else ⟨pad.center0, false⟩) := by
  obtain ⟨h1, _⟩ := processSelected_ok component pad (d + pad.xsize / 2)
    (selectedValues f component) o layer hnd hsnd hsub hfresh
  refine ⟨_, h1, ?_⟩
  show (loopPorts pad layer (d + pad.xsize / 2) o component.name 0
    (selectedValues f component)).1 = _
  rw [loopPorts_padRefs]
  exact List.map_congr_left fun port _ =>
    placeOne_fst pad layer (d + pad.xsize / 2) o port

/-- Witness for C2 (amended) at a concrete input: the north-facing
one-port component at orientation 90 gets its pad center at (0, 60). -/
theorem spec_c2_witness :
    ((oneNorth.ports.map Port.name).Nodup ∧
     ((selectedValues select_ports_electrical oneNorth).map Port.name).Nodup ∧
     (∀ p ∈ selectedValues select_ports_electrical oneNorth,
        p.name ∈ oneNorth.ports.map Port.name) ∧
     (∀ p ∈ selectedValues select_ports_electrical oneNorth,
        ∀ e ∈ (loopPorts pad20 "M3" (50 + pad20.xsize / 2) 90 oneNorth.name 0
          (selectedValues select_ports_electrical oneNorth)).2.2, p.name ≠ e.name)) ∧
    (∃ out,
      (add_electrical_pads_shortest oneNorth pad20 50 select_ports_electrical [] 90
        "M3").1 = .ok out ∧
      out.padRefs = (selectedValues select_ports_electrical oneNorth).map (fun port =>
        if (90 : ℚ) = 0 then ⟨(port.x + (50 + pad20.xsize / 2), port.y), true⟩
        else if (90 : ℚ) = 180 then ⟨(port.x - (50 + pad20.xsize / 2), port.y), true⟩
        else if (90 : ℚ) = 90 then ⟨(port.x, port.y + (50 + pad20.xsize / 2)), true⟩
        else if (90 : ℚ) = 270 then ⟨(port.x, port.y - (50 + pad20.xsize / 2)), true⟩
        else ⟨pad20.center0, false⟩)) :=
  ⟨⟨by decide, by decide, by decide, by decide⟩,
    spec_c2 oneNorth pad20 50 select_ports_electrical 90 "M3"
      (by decide) (by decide) (by decide) (by decide)⟩

/-- Counterexample to C3 as stated: at the unsupported orientation 45,
the one-port component's output still contains one pad reference and its
generated pad port, so a pad IS emitted even though placement and
routing were skipped. -/
theorem spec_c3_counterexample :
    (add_electrical_pads_shortest oneNorth pad20 50 select_ports_electrical [] 45
        "M3").1.map (fun out =>
          (out.padRefs.length, out.routes.length, out.ports.map Port.name)) =
      .ok (1, 0, ["elec-c-1"]) ∧ (1 : Nat) ≠ 0 := by
  constructor
  · norm_num [add_electrical_pads_shortest, processSelected, loopPorts, placeOne,
      elecPort, elecName, selectedValues, select_ports_electrical, popPorts,
      Pad.pinE1, Pad.pinE3, Pad.pinE4, Pad.pinE2, wire_long, pad20, oneNorth,
      Bind.bind, Except.bind, Pure.pure, Except.pure, Except.map, PortsVal.values]
    all_goals decide
  · decide

/-- C3 (amended): for a `port_orientation` outside the set of four
supported values, the per-port loop still runs and no error is raised,
and placement and routing are skipped (no routes, every pad reference
left unplaced at its default center) — but one pad reference is still
instantiated and one generated pad port still added per selected
port. -/
theorem spec_c3 (component : Component) (pad : Pad) (d : ℚ)
    (f : List Port → List (String × Port)) (o : ℚ) (layer : String)
    (ho0 : o ≠ 0) (ho90 : o ≠ 90) (ho180 : o ≠ 180) (ho270 : o ≠ 270)
    (hnd : (component.ports.map Port.name).Nodup)
    (hsnd : ((selectedValues f component).map Port.name).Nodup)
    (hsub : ∀ p ∈ selectedValues f component, p.name ∈ component.ports.map Port.name)
    (hfresh : ∀ p ∈ selectedValues f component,
      ∀ e ∈ (loopPorts pad layer (d + pad.xsize / 2) o component.name 0
        (selectedValues f component)).2.2, p.name ≠ e.name) :
    ∃ out, (add_electrical_pads_shortest component pad d f [] o layer).1 = .ok out ∧
      out.routes = [] ∧
      out.padRefs = (selectedValues f component).map (fun _ => ⟨pad.center0, false⟩) ∧
      out.padRefs.length = (selectedValues f component).length ∧
      (∀ i, i < (selectedValues f component).length →
        elecName component.name i ∈ out.ports.map Port.name) := by
  obtain ⟨h1, _⟩ := processSelected_ok component pad (d + pad.xsize / 2)
    (selectedValues f component) o layer hnd hsnd hsub hfresh
  have hnames := loopPorts_elec_names pad layer (d + pad.xsize / 2) o component.name 0
    (selectedValues f component)
  refine ⟨_, h1, ?_, ?_, ?_, ?_⟩
  · exact loopPorts_routes_unsupported pad layer (d + pad.xsize / 2) o component.name
      ho0 ho180 ho90 ho270 0 (selectedValues f component)
  · show (loopPorts pad layer (d + pad.xsize / 2) o component.name 0
      (selectedValues f component)).1 = _
    rw [loopPorts_padRefs]
    exact List.map_congr_left fun port _ => by
      have := placeOne_unsupported pad layer (d + pad.xsize / 2) o port
        ho0 ho180 ho90 ho270
      rw [this]
  · exact loopPorts_padRefs_length pad layer (d + pad.xsize / 2) o component.name 0
      (selectedValues f component)
  · intro i hi
    rw [List.map_append, List.mem_append]
    left
    rw [hnames]
    exact List.mem_map_of_mem (elecName component.name)
      (List.mem_range'.2 ⟨i, hi, by omega⟩)

/-- Witness for C3 (amended) at orientation 45 on the one-port
component. -/
theorem spec_c3_witness :
    (((45 : ℚ) ≠ 0 ∧ (45 : ℚ) ≠ 90 ∧ (45 : ℚ) ≠ 180 ∧ (45 : ℚ) ≠ 270) ∧
     (oneNorth.ports.map Port.name).Nodup ∧
     ((selectedValues select_ports_electrical oneNorth).map Port.name).Nodup ∧
     (∀ p ∈ selectedValues select_ports_electrical oneNorth,
        p.name ∈ oneNorth.ports.map Port.name) ∧
     (∀ p ∈ selectedValues select_ports_electrical oneNorth,
        ∀ e ∈ (loopPorts pad20 "M3" (50 + pad20.xsize / 2) 45 oneNorth.name 0
          (selectedValues select_ports_electrical oneNorth)).2.2, p.name ≠ e.name)) ∧
    (∃ out,
      (add_electrical_pads_shortest oneNorth pad20 50 select_ports_electrical [] 45
        "M3").1 = .ok out ∧
      out.routes = [] ∧
      out.padRefs =
        (selectedValues select_ports_electrical oneNorth).map
          (fun _ => ⟨pad20.center0, false⟩) ∧
      out.padRefs.length = (selectedValues select_ports_electrical oneNorth).length ∧
      (∀ i, i < (selectedValues select_ports_electrical oneNorth).length →
        elecName oneNorth.name i ∈ out.ports.map Port.name)) :=
  ⟨⟨⟨by decide, by decide, by decide, by decide⟩, by decide, by decide, by decide,
      by decide⟩,
    spec_c3 oneNorth pad20 50 select_ports_electrical 45 "M3"
      (by decide) (by decide) (by decide) (by decide)
      (by decide) (by decide) (by decide) (by decide)⟩

/-- Counterexample to C7 as stated: in the single invocation that puts
elec-wire-1 at (−60, 0) (global orientation 180), elec-wire-2 sits at
(140, 0), not (260, 0); no single invocation produces both claimed
centers because the orientation is one global value. -/
theorem spec_c7_counterexample :
    (add_electrical_pads_shortest wire_long pad20 50 select_ports_electrical [] 180
        "M3").1.map (fun out => out.ports.map (fun p => (p.name, p.x, p.y))) =
      .ok [("elec-wire-1", -60, 0), ("elec-wire-2", 140, 0)] ∧
    (("elec-wire-2", (140 : ℚ), (0 : ℚ)) ≠ ("elec-wire-2", (260 : ℚ), (0 : ℚ))) := by
  constructor
  · norm_num [add_electrical_pads_shortest, processSelected, loopPorts, placeOne,
      elecPort, elecName, selectedValues, select_ports_electrical, popPorts,
      Pad.pinE1, Pad.pinE3, Pad.pinE4, Pad.pinE2, wire_long, pad20, oneNorth,
      Bind.bind, Except.bind, Pure.pure, Except.pure, Except.map, PortsVal.values]
    all_goals decide
  · decide

/-- C7 (amended): on the two-port wire with spacing 50 and the
half-extent-10 pad, the orientation is a single global value per
invocation: the invocation with orientation 180 yields ports
elec-wire-1 at (−60, 0) and elec-wire-2 at (140, 0), and the invocation
with orientation 0 yields elec-wire-1 at (60, 0) and elec-wire-2 at
(260, 0); e1 and e2 are absent from both outputs, and obtaining both
(−60, 0) and (260, 0) therefore takes two invocations. -/
theorem spec_c7 :
    (add_electrical_pads_shortest wire_long pad20 50 select_ports_electrical [] 180
        "M3").1.map (fun out => out.ports.map (fun p => (p.name, p.x, p.y))) =
      .ok [("elec-wire-1", -60, 0), ("elec-wire-2", 140, 0)] ∧
    (add_electrical_pads_shortest wire_long pad20 50 select_ports_electrical [] 0
        "M3").1.map (fun out => out.ports.map (fun p => (p.name, p.x, p.y))) =
      .ok [("elec-wire-1", 60, 0), ("elec-wire-2", 260, 0)] := by
  constructor
  · norm_num [add_electrical_pads_shortest, processSelected, loopPorts, placeOne,
      elecPort, elecName, selectedValues, select_ports_electrical, popPorts,
      Pad.pinE1, Pad.pinE3, Pad.pinE4, Pad.pinE2, wire_long, pad20, oneNorth,
      Bind.bind, Except.bind, Pure.pure, Except.pure, Except.map, PortsVal.values]
    all_goals decide
  · norm_num [add_electrical_pads_shortest, processSelected, loopPorts, placeOne,
      elecPort, elecName, selectedValues, select_ports_electrical, popPorts,
      Pad.pinE1, Pad.pinE3, Pad.pinE4, Pad.pinE2, wire_long, pad20, oneNorth,
      Bind.bind, Except.bind, Pure.pure, Except.pure, Except.map, PortsVal.values]
    all_goals decide

end AddElectricalPadsShortest
